import Mathlib

/-!
Verification development for the audio core of the `chromecast-receiver`
repository.  The JavaScript source is shallowly embedded: numeric values
become rationals (`ℚ`), JavaScript truncating `%` becomes `jsMod`,
stateful classes become explicit state records, and each method becomes a
Lean function over those records.  Theorems at the end of the file settle
the frozen claims about the spec.
-/

namespace CastReceiver

/-! ## JavaScript numeric primitives -/

/-- JavaScript number truncation (`Math.trunc`, also the implicit
truncation of the `%` operator): round toward zero. -/
def jsTrunc (q : ℚ) : ℤ :=
  if 0 ≤ q then ⌊q⌋ else -⌊-q⌋

/-- JavaScript remainder operator `a % b`: `a - b * trunc (a / b)`.
The result carries the sign of the dividend `a` (for `b > 0`). -/
def jsMod (a b : ℚ) : ℚ :=
  a - b * jsTrunc (a / b)

lemma jsMod_nonneg_of_nonneg {a b : ℚ} (ha : 0 ≤ a) (hb : 0 < b) :
    0 ≤ jsMod a b ∧ jsMod a b < b := by
  have hq : (0 : ℚ) ≤ a / b := div_nonneg ha hb.le
  have hfr : jsMod a b = b * Int.fract (a / b) := by
    unfold jsMod jsTrunc
    rw [if_pos hq, Int.fract]
    field_simp
  constructor
  · rw [hfr]; exact mul_nonneg hb.le (Int.fract_nonneg _)
  · rw [hfr]
    calc b * Int.fract (a / b) < b * 1 :=
          (mul_lt_mul_left hb).mpr (Int.fract_lt_one _)
    _ = b := mul_one b

lemma jsMod_neg_bounds {a b : ℚ} (ha : a < 0) (hb : 0 < b) :
    -b < jsMod a b ∧ jsMod a b ≤ 0 := by
  have hq : ¬ (0 : ℚ) ≤ a / b := by
    simpa using (div_neg_of_neg_of_pos ha hb).not_le
  have hfr : jsMod a b = -(b * Int.fract (-(a / b))) := by
    unfold jsMod jsTrunc
    rw [if_neg hq, Int.fract]
    push_cast
    field_simp
    ring
  constructor
  · rw [hfr]
    have : b * Int.fract (-(a / b)) < b * 1 :=
      (mul_lt_mul_left hb).mpr (Int.fract_lt_one _)
    linarith [this]
  · rw [hfr]
    have : 0 ≤ b * Int.fract (-(a / b)) :=
      mul_nonneg hb.le (Int.fract_nonneg _)
    linarith [this]

/-! ## TrackAudio: loop transport math (`src/audio/TrackAudio.js`)

`getCurrentPosition` reads a handful of fields of the `TrackAudio`
instance and of its `Tone.Player`; we capture exactly those fields. -/

/-- The state read by `TrackAudio.getCurrentPosition`. `playerStarted`
models `this.player.state === 'started'`; `playerLoop` and
`playerReverse` are `this.player.loop` / `this.player.reverse`;
`bufferDuration` is `this.player.buffer.duration`. -/
structure TrackPositionState where
  isRecording : Bool
  recordStartTime : ℚ
  playerStarted : Bool
  playerLoop : Bool
  playerReverse : Bool
  playbackRate : ℚ
  bufferDuration : ℚ
  playStartTime : ℚ
  playStartOffset : ℚ
  loopStart : ℚ
  loopEnd : ℚ
  pausePosition : ℚ
  deriving Repr

/-- Embedding of `TrackAudio.getCurrentPosition` (TrackAudio.js:220-258).
`now` is `Tone.now()`.  JavaScript falsy-coalescing `x || d` maps `0` to
`d`, hence the `if … = 0` tests. -/
def getCurrentPosition (t : TrackPositionState) (now : ℚ) : ℚ :=
  if t.isRecording then now - t.recordStartTime
  else if t.playerStarted then
    let duration := t.bufferDuration
    if duration = 0 then 0
    else
      let rate := t.playbackRate
      let elapsed := (now - t.playStartTime) * rate
      -- `this.loopStart || 0` is the identity on numbers
      let loopStart := t.loopStart
      let loopEnd := if t.loopEnd = 0 then duration else t.loopEnd
      let loopLen := loopEnd - loopStart
      if t.playerLoop ∧ 0 < loopLen then
        let startOffset := if t.playStartOffset = 0 then loopStart
                           else t.playStartOffset
        let relStart := startOffset - loopStart
        if t.playerReverse then
          let relPos := jsMod (relStart - elapsed) loopLen
          let relPos := if relPos < 0 then relPos + loopLen else relPos
          loopStart + relPos
        else
          loopStart + jsMod (relStart + elapsed) loopLen
      else
        if t.playerReverse then
          max 0 ((if t.playStartOffset = 0 then duration else t.playStartOffset) - elapsed)
        else
          min duration ((t.playStartOffset) + elapsed)
  else t.pausePosition

/-- A concrete `TrackAudio` state: looping player, loop region `[2, 4)`,
play started at offset `1` (below `loopStart`), unit rate, forward. -/
def trackBelowLoopStart : TrackPositionState :=
  { isRecording := false
    recordStartTime := 0
    playerStarted := true
    playerLoop := true
    playerReverse := false
    playbackRate := 1
    bufferDuration := 10
    playStartTime := 0
    playStartOffset := 1
    loopStart := 2
    loopEnd := 4
    pausePosition := 0 }

/-- After the JavaScript remainder is conditionally shifted by `+ loopLen`
(the reverse branch of `getCurrentPosition`), the result lies in `[0, L)`. -/
lemma jsMod_shift_mem {x L : ℚ} (hL : 0 < L) :
    0 ≤ (if jsMod x L < 0 then jsMod x L + L else jsMod x L) ∧
      (if jsMod x L < 0 then jsMod x L + L else jsMod x L) < L := by
  rcases lt_or_le x 0 with hx | hx
  · have h := jsMod_neg_bounds hx hL
    by_cases hm : jsMod x L < 0
    · rw [if_pos hm]
      constructor <;> linarith [h.1, h.2]
    · rw [if_neg hm]
      push_neg at hm
      exact ⟨hm, by linarith [h.2]⟩
  · have h := jsMod_nonneg_of_nonneg hx hL
    rw [if_neg (not_lt.mpr h.1)]
    exact h

/-- A concrete `TrackAudio` state: looping player, loop region `[2, 4)`,
play started at offset `3` inside the region, unit rate, forward. -/
def trackInsideLoop : TrackPositionState :=
  { isRecording := false
    recordStartTime := 0
    playerStarted := true
    playerLoop := true
    playerReverse := false
    playbackRate := 1
    bufferDuration := 10
    playStartTime := 0
    playStartOffset := 3
    loopStart := 2
    loopEnd := 4
    pausePosition := 0 }

/-- C1 (counterexample): the claim that for a looping player with
`loopEnd > loopStart` the position computed by
`TrackAudio.getCurrentPosition` always lies in `[loopStart, loopEnd)` is
false at a concrete input: with loop region `[2, 4)`, play started at
offset `1` (below the loop start), rate `1`, forward direction and wall
time `1/2` after the start, the computed position is `3/2 < loopStart`. -/
theorem C1_counterexample :
    getCurrentPosition trackBelowLoopStart (1/2) = 3/2 ∧
      ¬ (trackBelowLoopStart.loopStart ≤ getCurrentPosition trackBelowLoopStart (1/2)) := by
  constructor
  · norm_num [getCurrentPosition, trackBelowLoopStart, jsMod, jsTrunc]
  · norm_num [getCurrentPosition, trackBelowLoopStart, jsMod, jsTrunc]

/-- C1 (amended): for a started, looping, non-recording track whose
effective loop region satisfies `loopEnd > loopStart`, whose effective
play-start offset is at least `loopStart`, with nonnegative playback rate
and nonnegative elapsed wall time, the position computed by
`TrackAudio.getCurrentPosition` lies in `[loopStart, loopEnd)` — in both
the forward and the reversed direction.  (The original claim admitted
play-start offsets below `loopStart`, for which the forward branch
returns a position below `loopStart`.) -/
theorem C1_loop_position_in_range (t : TrackPositionState) (now : ℚ)
    (hrec : t.isRecording = false)
    (hstart : t.playerStarted = true)
    (hloop : t.playerLoop = true)
    (hdur : t.bufferDuration ≠ 0)
    (hlen : t.loopStart < (if t.loopEnd = 0 then t.bufferDuration else t.loopEnd))
    (hoff : t.loopStart ≤ (if t.playStartOffset = 0 then t.loopStart else t.playStartOffset))
    (hrate : 0 ≤ t.playbackRate)
    (hnow : t.playStartTime ≤ now) :
    t.loopStart ≤ getCurrentPosition t now ∧
      getCurrentPosition t now <
        (if t.loopEnd = 0 then t.bufferDuration else t.loopEnd) := by
  have helapsed : 0 ≤ (now - t.playStartTime) * t.playbackRate :=
    mul_nonneg (by linarith) hrate
  have hL : 0 < (if t.loopEnd = 0 then t.bufferDuration else t.loopEnd) - t.loopStart := by
    linarith
  unfold getCurrentPosition
  rw [hrec, hstart]
  simp only [Bool.false_eq_true, if_false, if_true, hloop, if_neg hdur]
  rw [if_pos ⟨trivial, hL⟩]
  set L := (if t.loopEnd = 0 then t.bufferDuration else t.loopEnd) - t.loopStart with hLdef
  set so := (if t.playStartOffset = 0 then t.loopStart else t.playStartOffset) with hso
  by_cases hrev : t.playerReverse
  · rw [if_pos hrev]
    have h := jsMod_shift_mem (L := L)
      (x := so - t.loopStart - (now - t.playStartTime) * t.playbackRate) hL
    constructor <;> [linarith [h.1]; linarith [h.2]]
  · rw [if_neg hrev]
    have h := jsMod_nonneg_of_nonneg
      (a := so - t.loopStart + (now - t.playStartTime) * t.playbackRate)
      (b := L) (by linarith) hL
    constructor <;> [linarith [h.1]; linarith [h.2]]

/-- C1 witness: the amended theorem applied at the concrete state
`trackInsideLoop` (loop `[2, 4)`, offset `3`, rate `1`) at wall time `5`. -/
theorem C1_loop_position_in_range_witness :
    trackInsideLoop.loopStart ≤ getCurrentPosition trackInsideLoop 5 ∧
      getCurrentPosition trackInsideLoop 5 <
        (if trackInsideLoop.loopEnd = 0 then trackInsideLoop.bufferDuration
         else trackInsideLoop.loopEnd) :=
  C1_loop_position_in_range trackInsideLoop 5 rfl rfl rfl
    (by norm_num [trackInsideLoop]) (by norm_num [trackInsideLoop])
    (by norm_num [trackInsideLoop]) (by norm_num [trackInsideLoop])
    (by norm_num [trackInsideLoop])

/-! ## PCMRecorder (`src/cast/CastManager.js`, AudioUtils section)

The recorder accumulates per-channel chunks posted by its worklet and, on
`stop()`, truncates, synthesizes silence / duplicates channels, fades the
edges and encodes.  Samples are rationals; chunk lists stand for the
`Float32Array`s. -/

/-- The fields of a `PCMRecorder` instance used by the data handler and
`stop()`.  `targetSampleCount` is set externally (by
`TrackAudio.startRecording`); `sampleRate` is `this.context.sampleRate`. -/
structure PCMRecorderState where
  leftBuffers : List (List ℚ)
  rightBuffers : List (List ℚ)
  recordingLength : ℕ
  targetSampleCount : Option ℕ
  isRecording : Bool
  sampleRate : ℕ
  deriving Repr

/-- Embedding of the `message.type === 'data'` branch of the worklet
message handler (CastManager.js:1092-1105): append the chunk pair, bump
`recordingLength`, and auto-stop once the (truthy) target is reached. -/
def handleDataMessage (s : PCMRecorderState) (left right : List ℚ) :
    PCMRecorderState :=
  if s.isRecording = false then s
  else
    let s1 := { s with
      leftBuffers := s.leftBuffers ++ [left]
      rightBuffers := s.rightBuffers ++ [right]
      recordingLength := s.recordingLength + left.length }
    match s1.targetSampleCount with
    | some t =>
        -- `if (this.targetSampleCount && this.recordingLength >= this.targetSampleCount)`
        if t ≠ 0 ∧ t ≤ s1.recordingLength then { s1 with isRecording := false }
        else s1
    | none => s1

/-- Embedding of `PCMRecorder._mergeBuffers` (CastManager.js:1253-1266):
copy chunk prefixes into a zero-initialized buffer of exactly
`totalTargetLength` samples, stopping when the space is exhausted. -/
def mergeBuffers : List (List ℚ) → ℕ → List ℚ
  | [], space => List.replicate space 0
  | c :: cs, space =>
      if space = 0 then []
      else
        let toCopy := min c.length space
        c.take toCopy ++ mergeBuffers cs (space - toCopy)

lemma mergeBuffers_length (bs : List (List ℚ)) (total : ℕ) :
    (mergeBuffers bs total).length = total := by
  induction bs generalizing total with
  | nil => simp [mergeBuffers]
  | cons c cs ih =>
      by_cases h0 : total = 0
      · simp [mergeBuffers, h0]
      · have hmin : min c.length total ≤ total := Nat.min_le_right _ _
        simp only [mergeBuffers, if_neg h0, List.length_append, List.length_take, ih]
        omega

/-- `finalLength` computed at the top of `PCMRecorder.stop()`
(CastManager.js:1207): `this.targetSampleCount ?
min(recordingLength, targetSampleCount) : recordingLength` (a target of
`0` is falsy in JavaScript). -/
def finalLengthOf (s : PCMRecorderState) : ℕ :=
  match s.targetSampleCount with
  | some t => if t ≠ 0 then min s.recordingLength t else s.recordingLength
  | none => s.recordingLength

/-- JavaScript `Math.abs`. -/
def jsAbs (q : ℚ) : ℚ :=
  if q < 0 then -q else q

/-- The right-channel silence detector of `PCMRecorder.stop()`
(CastManager.js:1221-1227): the channel counts as silent when no sample
among the first `min(length, 1000)` exceeds `0.0001` in magnitude. -/
def silentDetect (buf : List ℚ) : Bool :=
  (buf.take 1000).all (fun x => decide (jsAbs x ≤ 1/10000))

/-- The edge micro-fade of `PCMRecorder.stop()` (CastManager.js:1233-1243):
the first `fadeSamples` samples ramp up linearly and the last
`fadeSamples` ramp down; `fadeSamples ≤ finalLength / 2`, so the two
ranges never overlap. -/
def applyEdgeFade (buf : List ℚ) (finalLength fadeSamples : ℕ) : List ℚ :=
  buf.mapIdx (fun i x =>
    if i < fadeSamples then x * ((i : ℚ) / (fadeSamples : ℚ))
    else if finalLength - fadeSamples ≤ i ∧ i < finalLength then
      x * (((finalLength - 1 - i : ℕ) : ℚ) / (fadeSamples : ℚ))
    else x)

/-- Embedding of `PCMRecorder.stop()` (CastManager.js:1196-1251),
returning the two channels of the `AudioBuffer` handed to `encodeWAV`:
truncate to `finalLength`, return a 128-sample silent stereo buffer when
nothing was captured, duplicate the left channel into a silent right
channel, then fade the edges. -/
def PCMRecorder.stop (s : PCMRecorderState) : List ℚ × List ℚ :=
  let finalLength := finalLengthOf s
  let leftBuffer := mergeBuffers s.leftBuffers finalLength
  let rightBuffer := mergeBuffers s.rightBuffers finalLength
  if finalLength = 0 then
    -- `this.context.createBuffer(2, 128, sampleRate)`: silent stereo
    (List.replicate 128 0, List.replicate 128 0)
  else
    let rightBuffer := if silentDetect rightBuffer then leftBuffer else rightBuffer
    let fadeSamples := min (finalLength / 2) (s.sampleRate * 5 / 1000)
    (applyEdgeFade leftBuffer finalLength fadeSamples,
     applyEdgeFade rightBuffer finalLength fadeSamples)

/-- `TrackAudio.startRecording` (TrackAudio.js:386-391) sets
`recorder.targetSampleCount = Math.floor(duration * sampleRate)`. -/
def targetSampleCountFor (duration sampleRate : ℚ) : ℤ :=
  ⌊duration * sampleRate⌋

lemma applyEdgeFade_length (buf : List ℚ) (a b : ℕ) :
    (applyEdgeFade buf a b).length = buf.length := by
  simp only [applyEdgeFade, List.length_mapIdx]

lemma finalLengthOf_eq_zero {s : PCMRecorderState} (h : s.recordingLength = 0) :
    finalLengthOf s = 0 := by
  unfold finalLengthOf
  cases htc : s.targetSampleCount with
  | none => exact h
  | some t =>
      by_cases ht : t = 0
      · simp [ht, h]
      · simp [ht, h]

/-- A recorder that was stopped before any worklet chunk arrived, with the
target of a 2-second recording at 48 kHz. -/
def emptyTargetRecorder : PCMRecorderState :=
  { leftBuffers := []
    rightBuffers := []
    recordingLength := 0
    targetSampleCount := some 96000
    isRecording := false
    sampleRate := 48000 }

/-- A recorder holding one 3-sample chunk per channel with a 2-sample
target. -/
def shortTargetRecorder : PCMRecorderState :=
  { leftBuffers := [[1, 1/2, 1/4]]
    rightBuffers := [[1, 1/2, 1/4]]
    recordingLength := 3
    targetSampleCount := some 2
    isRecording := false
    sampleRate := 48000 }

/-- A recorder that captured nothing, with no target set. -/
def zeroCaptureRecorder : PCMRecorderState :=
  { leftBuffers := []
    rightBuffers := []
    recordingLength := 0
    targetSampleCount := none
    isRecording := false
    sampleRate := 48000 }

/-- A recorder whose right channel contains only near-zero samples. -/
def silentRightRecorder : PCMRecorderState :=
  { leftBuffers := [[1, 1/2]]
    rightBuffers := [[0, 0]]
    recordingLength := 2
    targetSampleCount := none
    isRecording := false
    sampleRate := 48000 }

/-- C2 (counterexample): the claim that the buffer returned by
`PCMRecorder.stop()` contains exactly `min(recorded, target)` samples per
channel is false when zero samples were captured: with
`targetSampleCount = 96000` and nothing recorded, `stop()` returns a
128-sample silent buffer, not `min(0, 96000) = 0` samples. -/
theorem C2_counterexample :
    (PCMRecorder.stop emptyTargetRecorder).1.length = 128 ∧
      (PCMRecorder.stop emptyTargetRecorder).1.length ≠
        min emptyTargetRecorder.recordingLength 96000 := by
  norm_num [PCMRecorder.stop, finalLengthOf, emptyTargetRecorder]

/-- C2 (amended): for a recording session with a nonzero target sample
count, each channel of the buffer returned by `PCMRecorder.stop()` holds
exactly `min(recorded, target)` samples when at least one sample was
captured, and `128` silent samples when none was; consequently, whenever
the target is at least 128 samples — in particular the
`⌊2.0 * 48000⌋ = 96000` target set by `startRecording(2.0)` at 48 kHz —
the buffer never exceeds the target. -/
theorem C2_stop_truncates_to_target (s : PCMRecorderState) (tgt : ℕ)
    (htgt : s.targetSampleCount = some tgt) (h0 : tgt ≠ 0) :
    ((PCMRecorder.stop s).1.length =
       if min s.recordingLength tgt = 0 then 128 else min s.recordingLength tgt) ∧
    ((PCMRecorder.stop s).2.length =
       if min s.recordingLength tgt = 0 then 128 else min s.recordingLength tgt) ∧
    (128 ≤ tgt → (PCMRecorder.stop s).1.length ≤ tgt) ∧
    targetSampleCountFor 2 48000 = 96000 := by
  have hfin : finalLengthOf s = min s.recordingLength tgt := by
    simp [finalLengthOf, htgt, h0]
  have hlen : ((PCMRecorder.stop s).1.length =
      if min s.recordingLength tgt = 0 then 128 else min s.recordingLength tgt) ∧
      ((PCMRecorder.stop s).2.length =
      if min s.recordingLength tgt = 0 then 128 else min s.recordingLength tgt) := by
    unfold PCMRecorder.stop
    rw [hfin]
    by_cases h : min s.recordingLength tgt = 0
    · simp [h]
    · simp [h, applyEdgeFade_length, apply_ite List.length, mergeBuffers_length]
  refine ⟨hlen.1, hlen.2, ?_, by norm_num [targetSampleCountFor]⟩
  intro h128
  rw [hlen.1]
  by_cases h : min s.recordingLength tgt = 0
  · simpa [h] using h128
  · simp [h, Nat.min_le_right]

/-- C2 witness: the amended theorem applied to `shortTargetRecorder`
(3 samples recorded, target 2). -/
theorem C2_stop_truncates_to_target_witness :
    ((PCMRecorder.stop shortTargetRecorder).1.length =
       if min shortTargetRecorder.recordingLength 2 = 0 then 128
       else min shortTargetRecorder.recordingLength 2) ∧
    ((PCMRecorder.stop shortTargetRecorder).2.length =
       if min shortTargetRecorder.recordingLength 2 = 0 then 128
       else min shortTargetRecorder.recordingLength 2) ∧
    (128 ≤ 2 → (PCMRecorder.stop shortTargetRecorder).1.length ≤ 2) ∧
    targetSampleCountFor 2 48000 = 96000 :=
  C2_stop_truncates_to_target shortTargetRecorder 2 rfl (by norm_num)

/-- C7: `PCMRecorder.stop()` synthesizes valid output instead of failing:
when zero samples were captured it returns a minimal 128-sample silent
stereo buffer (never an empty one), and when the right channel is
detected silent (no magnitude above `0.0001` among the first 1000
samples) the left channel is duplicated into the right, so the returned
channels coincide. -/
theorem C7_stop_synthesizes_valid_output (s : PCMRecorderState) :
    (s.recordingLength = 0 →
       PCMRecorder.stop s = (List.replicate 128 0, List.replicate 128 0) ∧
         (PCMRecorder.stop s).1 ≠ []) ∧
    (finalLengthOf s ≠ 0 →
       silentDetect (mergeBuffers s.rightBuffers (finalLengthOf s)) = true →
       (PCMRecorder.stop s).2 = (PCMRecorder.stop s).1) := by
  constructor
  · intro h0
    have hfin := finalLengthOf_eq_zero h0
    constructor
    · unfold PCMRecorder.stop
      rw [hfin]
      simp
    · unfold PCMRecorder.stop
      rw [hfin]
      simp
  · intro hfin hsil
    unfold PCMRecorder.stop
    rw [if_neg hfin, if_pos hsil]

/-- C7 witness: the theorem applied to `zeroCaptureRecorder` (empty
session) and to `silentRightRecorder` (near-zero right channel). -/
theorem C7_stop_synthesizes_valid_output_witness :
    (PCMRecorder.stop zeroCaptureRecorder =
        (List.replicate 128 0, List.replicate 128 0) ∧
      (PCMRecorder.stop zeroCaptureRecorder).1 ≠ []) ∧
    (PCMRecorder.stop silentRightRecorder).2 =
      (PCMRecorder.stop silentRightRecorder).1 :=
  ⟨(C7_stop_synthesizes_valid_output zeroCaptureRecorder).1 rfl,
   (C7_stop_synthesizes_valid_output silentRightRecorder).2
     (by norm_num [finalLengthOf, silentRightRecorder])
     (by norm_num [silentDetect, mergeBuffers, jsAbs, finalLengthOf,
                   silentRightRecorder])⟩

/-! ## SamplerVoice (`src/audio/SamplerVoice.js`) and
SamplerService (`src/audio/SamplerService.js`)

A voice wraps a `Tone.Player`; `player.onstop` clears the logical
`_isPlaying` flag, so in this embedding `player.stop()` sets
`isPlaying := false` and `player.start()` sets it to `true`.
Voice ids are `index + 1`: the `SamplerService` constructor builds
`new SamplerVoice(i + 1, …)` for `i = 0 … 19`. -/

inductive PadMode
  | oneshot
  | gate
  | toggle
  deriving DecidableEq, Repr

/-- Where a voice's `outputBus` is currently connected:
the shared sampler output (`SamplerService.output`) or a specific
track's `chainInput`. -/
inductive VoiceDest
  | samplerOutput
  | trackChain (trackIndex : ℤ)
  deriving DecidableEq, Repr

/-- The fields of a `SamplerVoice` instance used by `trigger`, `release`,
`stop`, `setMode` and the service-level routing.  `playerConnected`
records whether `this.player` still feeds the voice's `outputBus`
(severed by `voice.player.disconnect()` in `assignSample`). -/
structure SamplerVoiceState where
  mode : PadMode
  loaded : Bool
  isPlaying : Bool
  playerLoop : Bool
  transwaveEnabled : Bool
  chokeGroup : Option ℤ
  dest : VoiceDest
  playerConnected : Bool
  deriving Repr

/-- Embedding of `SamplerVoice.trigger` (SamplerVoice.js:102-142).
`play` sets `_isPlaying := true`; `stop` schedules `player.stop`, whose
`onstop` callback clears `_isPlaying`. -/
def SamplerVoice.trigger (v : SamplerVoiceState) : SamplerVoiceState :=
  if v.loaded = false then v
  else
    match v.mode with
    | PadMode.toggle =>
        if v.isPlaying then
          { v with isPlaying := false, playerLoop := false }
        else
          { v with playerLoop := true, isPlaying := true }
    | PadMode.gate =>
        -- `player.loop = false`; re-trigger restarts, net state is playing
        { v with playerLoop := false, isPlaying := true }
    | PadMode.oneshot =>
        { v with playerLoop := v.transwaveEnabled, isPlaying := true }

/-- Embedding of `SamplerVoice.release` (SamplerVoice.js:144-151):
only Gate mode stops; Toggle and OneShot ignore release. -/
def SamplerVoice.release (v : SamplerVoiceState) : SamplerVoiceState :=
  if v.mode = PadMode.gate then { v with isPlaying := false } else v

/-- Embedding of `SamplerVoice.stop` (SamplerVoice.js:162-174). -/
def SamplerVoice.stopVoice (v : SamplerVoiceState) : SamplerVoiceState :=
  { v with isPlaying := false }

/-- Embedding of `SamplerVoice.setMode` (SamplerVoice.js:176-183):
a valid mode is stored and the voice stopped; `PadMode` only carries
valid modes. -/
def SamplerVoice.setMode (v : SamplerVoiceState) (m : PadMode) :
    SamplerVoiceState :=
  SamplerVoice.stopVoice { v with mode := m }

/-- Embedding of `SamplerVoice.connect` (SamplerVoice.js:284-287):
`outputBus.disconnect(); outputBus.connect(dest)`. -/
def SamplerVoice.connectDest (v : SamplerVoiceState) (d : VoiceDest) :
    SamplerVoiceState :=
  { v with dest := d }

/-- JavaScript array indexing `voices[i]` for a possibly negative index. -/
def jsIndex (voices : List SamplerVoiceState) (i : ℤ) :
    Option SamplerVoiceState :=
  if 0 ≤ i then voices.get? i.toNat else none

/-- JavaScript array element update at a (possibly out-of-range) index. -/
def jsSetIndex (voices : List SamplerVoiceState) (i : ℤ)
    (v : SamplerVoiceState) : List SamplerVoiceState :=
  if 0 ≤ i then voices.set i.toNat v else voices

/-- Embedding of `SamplerService.silenceChokeGroup`
(SamplerService.js:53-59): stop every voice of the group except the one
with the excluded pad id (voice ids are `index + 1`). -/
def silenceChokeGroup (voices : List SamplerVoiceState) (g : ℤ)
    (excludePadId : ℤ) : List SamplerVoiceState :=
  voices.mapIdx (fun k v =>
    if v.chokeGroup = some g ∧ ((k : ℤ) + 1) ≠ excludePadId then
      SamplerVoice.stopVoice v
    else v)

/-- Embedding of `SamplerService.triggerPad` (SamplerService.js:34-44):
look up the voice at `padId - 1`, silence its choke group (if any)
excluding itself, then trigger it. -/
def triggerPad (voices : List SamplerVoiceState) (padId : ℤ) :
    List SamplerVoiceState :=
  match jsIndex voices (padId - 1) with
  | none => voices
  | some voice =>
      let voices1 :=
        match voice.chokeGroup with
        | some g => silenceChokeGroup voices g padId
        | none => voices
      jsSetIndex voices1 (padId - 1) (SamplerVoice.trigger voice)

lemma countP_le_one_of_unique (p : SamplerVoiceState → Bool)
    (l : List SamplerVoiceState) (j : ℕ)
    (h : ∀ k (hk : k < l.length), k ≠ j → p (l.get ⟨k, hk⟩) = false) :
    l.countP p ≤ 1 := by
  induction l generalizing j with
  | nil => simp
  | cons a l ih =>
      rw [List.countP_cons]
      cases j with
      | zero =>
          have hz : l.countP p = 0 := by
            rw [List.countP_eq_zero]
            intro x hx
            obtain ⟨⟨k, hk⟩, rfl⟩ := List.mem_iff_get.mp hx
            have := h (k + 1) (by simpa using Nat.succ_lt_succ hk) (by omega)
            simpa using this
          rw [hz]
          split <;> omega
      | succ j =>
          have ha : p a = false := by
            have := h 0 (by simp) (by omega)
            simpa using this
          have hl : l.countP p ≤ 1 := by
            apply ih j
            intro k hk hkj
            have := h (k + 1) (by simpa using Nat.succ_lt_succ hk) (by omega)
            simpa using this
          rw [ha]
          simpa using hl

/-- C3: after `triggerPad(padId)` on a voice belonging to choke group `g`,
every other voice of group `g` is stopped, hence at most one voice of the
group is sounding. -/
theorem C3_choke_group_exclusive (voices : List SamplerVoiceState)
    (padId g : ℤ) (voice : SamplerVoiceState)
    (hv : jsIndex voices (padId - 1) = some voice)
    (hg : voice.chokeGroup = some g) :
    (∀ k (hk : k < (triggerPad voices padId).length),
        ((k : ℤ) + 1) ≠ padId →
        ((triggerPad voices padId).get ⟨k, hk⟩).chokeGroup = some g →
        ((triggerPad voices padId).get ⟨k, hk⟩).isPlaying = false) ∧
    (triggerPad voices padId).countP
        (fun v => v.chokeGroup == some g && v.isPlaying) ≤ 1 := by
  have hpos : 0 ≤ padId - 1 := by
    by_contra hneg
    rw [jsIndex, if_neg hneg] at hv
    exact Option.noConfusion hv
  have hget : voices.get? (padId - 1).toNat = some voice := by
    rw [jsIndex, if_pos hpos] at hv
    exact hv
  set i := (padId - 1).toNat with hidef
  have hilt : i < voices.length := (List.get?_eq_some.mp hget).1
  have hipad : (i : ℤ) + 1 = padId := by
    have := Int.toNat_of_nonneg hpos
    omega
  have hres : triggerPad voices padId =
      (silenceChokeGroup voices g padId).set i (SamplerVoice.trigger voice) := by
    simp only [triggerPad, hv, hg]
    rw [jsSetIndex, if_pos hpos]
  have hpoint : ∀ k (hk : k < (triggerPad voices padId).length),
      ((k : ℤ) + 1) ≠ padId →
      ((triggerPad voices padId).get ⟨k, hk⟩).chokeGroup = some g →
      ((triggerPad voices padId).get ⟨k, hk⟩).isPlaying = false := by
    intro k hk hkpad
    have hki : k ≠ i := by omega
    have hkv : k < voices.length := by
      have : (triggerPad voices padId).length = voices.length := by
        rw [hres]
        simp [silenceChokeGroup]
      omega
    have h1 : (triggerPad voices padId)[k]? =
        some (if (voices.get ⟨k, hkv⟩).chokeGroup = some g ∧ ((k : ℤ) + 1) ≠ padId
              then SamplerVoice.stopVoice (voices.get ⟨k, hkv⟩)
              else voices.get ⟨k, hkv⟩) := by
      rw [hres, List.getElem?_set_ne (Ne.symm hki), silenceChokeGroup,
        List.getElem?_mapIdx, List.getElem?_eq_getElem hkv]
      simp [List.get_eq_getElem]
    have h2 : (triggerPad voices padId)[k]? =
        some ((triggerPad voices padId).get ⟨k, hk⟩) := by
      rw [List.get_eq_getElem, List.getElem?_eq_getElem hk]
    rw [h2] at h1
    have hval := Option.some.inj h1
    rw [hval]
    by_cases hc : (voices.get ⟨k, hkv⟩).chokeGroup = some g
    · rw [if_pos ⟨hc, hkpad⟩]
      intro
      rfl
    · rw [if_neg (by tauto)]
      intro hcg
      exact absurd hcg hc
  refine ⟨hpoint, ?_⟩
  apply countP_le_one_of_unique _ _ i
  intro k hk hki
  have hkpad : ((k : ℤ) + 1) ≠ padId := by omega
  have hp := hpoint k hk hkpad
  by_cases hc : ((triggerPad voices padId).get ⟨k, hk⟩).chokeGroup = some g
  · have hnp := hp hc
    show (_ && _) = false
    rw [hnp, Bool.and_false]
  · show (_ && _) = false
    rw [beq_eq_false_iff_ne.mpr hc, Bool.false_and]

/-- A sounding Gate voice in choke group 5. -/
def chokeVoicePlaying : SamplerVoiceState :=
  { mode := PadMode.gate
    loaded := true
    isPlaying := true
    playerLoop := false
    transwaveEnabled := false
    chokeGroup := some 5
    dest := VoiceDest.samplerOutput
    playerConnected := true }

/-- A stopped Gate voice in choke group 5. -/
def chokeVoiceStopped : SamplerVoiceState :=
  { chokeVoicePlaying with isPlaying := false }

/-- Three voices of choke group 5, of which the first and third are
sounding; pad 2 (the middle voice) is about to be triggered. -/
def chokeDemoVoices : List SamplerVoiceState :=
  [chokeVoicePlaying, chokeVoiceStopped, chokeVoicePlaying]

/-- C3 witness: the theorem applied to `chokeDemoVoices` at pad 2. -/
theorem C3_choke_group_exclusive_witness :
    (∀ k (hk : k < (triggerPad chokeDemoVoices 2).length),
        ((k : ℤ) + 1) ≠ 2 →
        ((triggerPad chokeDemoVoices 2).get ⟨k, hk⟩).chokeGroup = some 5 →
        ((triggerPad chokeDemoVoices 2).get ⟨k, hk⟩).isPlaying = false) ∧
    (triggerPad chokeDemoVoices 2).countP
        (fun v => v.chokeGroup == some 5 && v.isPlaying) ≤ 1 :=
  C3_choke_group_exclusive chokeDemoVoices 2 5 chokeVoiceStopped rfl rfl

/-- C4: trigger-mode behavior of a voice with a loaded sample.
Toggle: a trigger while stopped starts looped playback, a trigger while
playing stops it, and `release()` leaves the voice unchanged.  Gate: one
`release()` after one or two triggers leaves the voice stopped. -/
theorem C4_trigger_modes (v : SamplerVoiceState) (hl : v.loaded = true) :
    (v.mode = PadMode.toggle →
       (v.isPlaying = false →
          (SamplerVoice.trigger v).isPlaying = true ∧
            (SamplerVoice.trigger v).playerLoop = true) ∧
       (v.isPlaying = true → (SamplerVoice.trigger v).isPlaying = false) ∧
       SamplerVoice.release v = v) ∧
    (v.mode = PadMode.gate →
       (SamplerVoice.release (SamplerVoice.trigger v)).isPlaying = false ∧
       (SamplerVoice.release
           (SamplerVoice.trigger (SamplerVoice.trigger v))).isPlaying = false) := by
  constructor
  · intro hm
    refine ⟨?_, ?_, ?_⟩
    · intro hp
      simp [SamplerVoice.trigger, hl, hm, hp]
    · intro hp
      simp [SamplerVoice.trigger, hl, hm, hp]
    · simp [SamplerVoice.release, hm]
  · intro hm
    constructor
    · simp [SamplerVoice.trigger, SamplerVoice.release, hl, hm]
    · simp [SamplerVoice.trigger, SamplerVoice.release, hl, hm]

/-- A stopped Toggle voice with a loaded sample. -/
def toggleVoiceStopped : SamplerVoiceState :=
  { mode := PadMode.toggle
    loaded := true
    isPlaying := false
    playerLoop := false
    transwaveEnabled := false
    chokeGroup := none
    dest := VoiceDest.samplerOutput
    playerConnected := true }

/-- A stopped Gate voice with a loaded sample. -/
def gateVoiceStopped : SamplerVoiceState :=
  { toggleVoiceStopped with mode := PadMode.gate }

/-- C4 witness: the theorem applied to a stopped Toggle voice and a
stopped Gate voice. -/
theorem C4_trigger_modes_witness :
    ((SamplerVoice.trigger toggleVoiceStopped).isPlaying = true ∧
       (SamplerVoice.trigger toggleVoiceStopped).playerLoop = true) ∧
    (SamplerVoice.release
        (SamplerVoice.trigger (SamplerVoice.trigger gateVoiceStopped))).isPlaying
      = false :=
  ⟨((C4_trigger_modes toggleVoiceStopped rfl).1 rfl).1 rfl,
   ((C4_trigger_modes gateVoiceStopped rfl).2 rfl).2⟩

/-! ### SamplerService.assignSample routing (SamplerService.js:71-120) -/

/-- The default mode chosen by `assignSample` from the pad row
(SamplerService.js:75-80); the variable is initialized to `'oneshot'`. -/
def defaultModeFor (padId : ℤ) : PadMode :=
  if 1 ≤ padId ∧ padId ≤ 4 then PadMode.oneshot
  else if 5 ≤ padId ∧ padId ≤ 8 then PadMode.gate
  else if 9 ≤ padId ∧ padId ≤ 12 then PadMode.toggle
  else if 13 ≤ padId ∧ padId ≤ 16 then PadMode.gate
  else if 17 ≤ padId ∧ padId ≤ 20 then PadMode.gate
  else PadMode.oneshot

/-- Embedding of `SamplerService.assignSample` (SamplerService.js:71-120).
`tracksReady i` abstracts `window.tracks[i]` existing with a
`trackAudio.chainInput`; the subsequent `voice.load(url, name)` does not
touch the routing and is omitted.  For pads 17-20 the voice's player is
first disconnected, then the voice's output bus is rerouted to the
matching track's chain input, reverting to the shared sampler output when
the track is not ready; all other pads are (re)connected to the shared
sampler output. -/
def assignSample (tracksReady : ℤ → Bool)
    (voices : List SamplerVoiceState) (padId : ℤ) :
    List SamplerVoiceState :=
  match jsIndex voices (padId - 1) with
  | none => voices
  | some voice =>
      let v1 := SamplerVoice.setMode voice (defaultModeFor padId)
      let v2 :=
        if 17 ≤ padId ∧ padId ≤ 20 then
          -- `voice.player.disconnect()`
          let v := { v1 with playerConnected := false }
          let trackIndex : ℤ :=
            if padId = 17 then 0
            else if padId = 18 then 1
            else if padId = 19 then 2
            else if padId = 20 then 3
            else -1
          if tracksReady trackIndex then
            SamplerVoice.connectDest v (VoiceDest.trackChain trackIndex)
          else
            SamplerVoice.connectDest v VoiceDest.samplerOutput
        else
          SamplerVoice.connectDest v1 VoiceDest.samplerOutput
      jsSetIndex voices (padId - 1) v2

/-- C9: `assignSample` routing.  For pads 17-20 the voice's output is
connected to the chain input of track `padId - 17` (pad 17 to track 0 …
pad 20 to track 3) when that track is ready, reverting to the shared
sampler output otherwise; pads 1-16 are (re)connected to the shared
sampler output.  In particular pad 18 targets track index 1. -/
theorem C9_assign_sample_routing (tr : ℤ → Bool)
    (voices : List SamplerVoiceState) (padId : ℤ)
    (voice : SamplerVoiceState)
    (hv : jsIndex voices (padId - 1) = some voice) :
    (17 ≤ padId ∧ padId ≤ 20 →
       (jsIndex (assignSample tr voices padId) (padId - 1)).map
           SamplerVoiceState.dest =
         some (if tr (padId - 17) then VoiceDest.trackChain (padId - 17)
               else VoiceDest.samplerOutput)) ∧
    (1 ≤ padId ∧ padId ≤ 16 →
       (jsIndex (assignSample tr voices padId) (padId - 1)).map
           SamplerVoiceState.dest = some VoiceDest.samplerOutput) := by
  have hpos : 0 ≤ padId - 1 := by
    by_contra hneg
    rw [jsIndex, if_neg hneg] at hv
    exact Option.noConfusion hv
  have hget : voices.get? (padId - 1).toNat = some voice := by
    rw [jsIndex, if_pos hpos] at hv
    exact hv
  have hilt : (padId - 1).toNat < voices.length := (List.get?_eq_some.mp hget).1
  constructor
  · rintro ⟨h17, h20⟩
    have htrack : (if padId = 17 then (0:ℤ)
        else if padId = 18 then 1
        else if padId = 19 then 2
        else if padId = 20 then 3
        else -1) = padId - 17 := by
      interval_cases padId <;> norm_num
    simp only [assignSample, hv, jsSetIndex, if_pos hpos,
      if_pos (And.intro h17 h20), htrack]
    rw [jsIndex, if_pos hpos]
    by_cases htr : tr (padId - 17) = true
    · rw [if_pos htr, if_pos htr]
      rw [List.get?_eq_getElem?, List.getElem?_set_self hilt]
      rfl
    · rw [if_neg htr, if_neg htr]
      rw [List.get?_eq_getElem?, List.getElem?_set_self hilt]
      rfl
  · rintro ⟨h1, h16⟩
    have hn : ¬ (17 ≤ padId ∧ padId ≤ 20) := by omega
    simp only [assignSample, hv, jsSetIndex, if_pos hpos, if_neg hn]
    rw [jsIndex, if_pos hpos]
    rw [List.get?_eq_getElem?, List.getElem?_set_self hilt]
    rfl

/-- A fresh unloaded voice, as built by the `SamplerService` constructor. -/
def rackVoice : SamplerVoiceState :=
  { mode := PadMode.oneshot
    loaded := false
    isPlaying := false
    playerLoop := false
    transwaveEnabled := false
    chokeGroup := none
    dest := VoiceDest.samplerOutput
    playerConnected := true }

/-- The 20-voice rack built by the `SamplerService` constructor. -/
def samplerRack : List SamplerVoiceState :=
  List.replicate 20 rackVoice

/-- C9 witness: the theorem applied at pad 18 with every track ready:
voice 18's output ends up on track index 1's chain input. -/
theorem C9_assign_sample_routing_witness :
    (17 ≤ (18:ℤ) ∧ (18:ℤ) ≤ 20 →
       (jsIndex (assignSample (fun _ => true) samplerRack 18) (18 - 1)).map
           SamplerVoiceState.dest =
         some (if (fun (_ : ℤ) => true) (18 - 17) then
                 VoiceDest.trackChain (18 - 17)
               else VoiceDest.samplerOutput)) ∧
    (1 ≤ (18:ℤ) ∧ (18:ℤ) ≤ 16 →
       (jsIndex (assignSample (fun _ => true) samplerRack 18) (18 - 1)).map
           SamplerVoiceState.dest = some VoiceDest.samplerOutput) :=
  C9_assign_sample_routing (fun _ => true) samplerRack 18 rackVoice rfl

/-! ## Global LFOs (`src/audio/AudioContextManager.js`) and
parameter-to-LFO binding (`src/audio/TrackAudio.js`) -/

/-- The two global LFO nodes (`this.lfo` and `this.lfo2`), created in
`AudioContextManager.init`. -/
inductive GlobalLfo
  | one
  | two
  deriving DecidableEq, Repr

/-- The LFO fields of `AudioContextManager`; `none` models the `null`
each holds before `init()` runs. -/
structure AcmLfoState where
  lfo : Option GlobalLfo
  lfo2 : Option GlobalLfo
  deriving Repr

/-- Embedding of `AudioContextManager.getLfo` (AudioContextManager.js:211-213):
`return index === 1 ? this.lfo : this.lfo2`. -/
def AudioContextManager.getLfo (m : AcmLfoState) (index : ℤ) :
    Option GlobalLfo :=
  if index = 1 then m.lfo else m.lfo2

/-- The manager after `init()`: both LFOs exist. -/
def acmInitialized : AcmLfoState :=
  { lfo := some GlobalLfo.one, lfo2 := some GlobalLfo.two }

/-- One entry of `this.lfoConnections`: the rescale bounds, reversal and
the feeding LFO node (`source`). -/
structure LfoConn where
  scaleMin : ℚ
  scaleMax : ℚ
  reversed : Bool
  source : GlobalLfo
  deriving DecidableEq, Repr

/-- The LFO-binding fields of a `TrackAudio`: the `lfoConnections`
JavaScript `Map` (in insertion order) and the `lfoReverseState` object.
`slotParamResolves` abstracts `getAudioParamByName`'s fallback for
`slotN.property` names, which succeeds only when the slot holds an
effect exposing the property as a `Tone.Param`. -/
structure TrackLfoState where
  lfoConnections : List (String × LfoConn)
  lfoReverseState : String → Bool
  slotParamResolves : String → Bool

/-- Embedding of `TrackAudio.getAudioParamByName` (TrackAudio.js:728-751)
at the resolution level: the six fixed names always resolve; anything
else resolves only through a slot effect lookup. -/
def getAudioParamResolves (t : TrackLfoState) (p : String) : Bool :=
  if p = "volume" ∨ p = "pan" ∨ p = "pitch" ∨ p = "bass" ∨ p = "mid" ∨
      p = "treble" then true
  else t.slotParamResolves p

/-- JavaScript `Map.delete` on a string-keyed map held as an
insertion-ordered association list. -/
def jsMapDelete {α : Type} (l : List (String × α)) (k : String) :
    List (String × α) :=
  l.filter (fun q => !(q.1 == k))

/-- JavaScript `Map.set`: replace in place when the key exists, append
otherwise. -/
def jsMapSet {α : Type} (l : List (String × α)) (k : String) (v : α) :
    List (String × α) :=
  if l.any (fun q => q.1 == k) then
    l.map (fun q => if q.1 = k then (k, v) else q)
  else l ++ [(k, v)]

/-- JavaScript `Map.get`. -/
def jsMapLookup {α : Type} (l : List (String × α)) (k : String) :
    Option α :=
  (l.find? (fun q => q.1 == k)).map (fun q => q.2)

/-- Embedding of `TrackAudio.disconnectLFO` (TrackAudio.js:800-821):
tear down the audio-graph nodes of the binding (not modelled beyond the
map) and remove the map entry. -/
def disconnectLFO (t : TrackLfoState) (p : String) : TrackLfoState :=
  { t with lfoConnections := jsMapDelete t.lfoConnections p }

/-- Embedding of `TrackAudio.connectLFO` (TrackAudio.js:765-798): always
disconnect the existing binding first; resolve the parameter (silent
no-op when unresolved); fetch the LFO node from the manager (silent
no-op when absent); then install the new scaled connection, reversed
when `lfoReverseState[paramName]` is set. -/
def connectLFO (m : AcmLfoState) (t : TrackLfoState) (p : String)
    (mn mx : ℚ) (lfoIndex : ℤ) : TrackLfoState :=
  let t1 := disconnectLFO t p
  if getAudioParamResolves t p = false then t1
  else
    match AudioContextManager.getLfo m lfoIndex with
    | none => t1
    | some node =>
        let conn : LfoConn :=
          { scaleMin := mn, scaleMax := mx,
            reversed := t.lfoReverseState p, source := node }
        { t1 with lfoConnections := jsMapSet t1.lfoConnections p conn }

lemma jsMapDelete_countP {α : Type} (l : List (String × α)) (k : String) :
    (jsMapDelete l k).countP (fun q => q.1 == k) = 0 := by
  rw [List.countP_eq_zero]
  intro q hq
  have := List.of_mem_filter hq
  simpa using this

lemma jsMapDelete_any {α : Type} (l : List (String × α)) (k : String) :
    (jsMapDelete l k).any (fun q => q.1 == k) = false := by
  rw [Bool.eq_false_iff]
  intro hany
  obtain ⟨q, hq, hk⟩ := List.any_eq_true.mp hany
  have := List.of_mem_filter hq
  rw [hk] at this
  exact Bool.noConfusion this

lemma jsMapDelete_append_single {α : Type} (l : List (String × α)) (k : String)
    (v : α) :
    jsMapDelete (jsMapDelete l k ++ [(k, v)]) k = jsMapDelete l k := by
  rw [jsMapDelete, List.filter_append]
  have h1 : List.filter (fun q => !(q.1 == k)) [(k, v)] = [] := by
    simp [List.filter]
  rw [h1, List.append_nil]
  rw [jsMapDelete, List.filter_filter]
  apply List.filter_congr
  intro q hq
  simp


lemma connectLFO_slotParamResolves (m : AcmLfoState) (t : TrackLfoState)
    (p : String) (mn mx : ℚ) (idx : ℤ) :
    (connectLFO m t p mn mx idx).slotParamResolves = t.slotParamResolves := by
  unfold connectLFO disconnectLFO
  by_cases h : getAudioParamResolves t p = false
  · rw [if_pos h]
  · rw [if_neg h]
    cases AudioContextManager.getLfo m idx <;> rfl

lemma connectLFO_reverseState (m : AcmLfoState) (t : TrackLfoState)
    (p : String) (mn mx : ℚ) (idx : ℤ) :
    (connectLFO m t p mn mx idx).lfoReverseState = t.lfoReverseState := by
  unfold connectLFO disconnectLFO
  by_cases h : getAudioParamResolves t p = false
  · rw [if_pos h]
  · rw [if_neg h]
    cases AudioContextManager.getLfo m idx <;> rfl

lemma getAudioParamResolves_congr (t t' : TrackLfoState) (p : String)
    (h : t'.slotParamResolves = t.slotParamResolves) :
    getAudioParamResolves t' p = getAudioParamResolves t p := by
  unfold getAudioParamResolves
  rw [h]

lemma connectLFO_conns_eq (m : AcmLfoState) (t : TrackLfoState) (p : String)
    (mn mx : ℚ) (idx : ℤ) (node : GlobalLfo)
    (hres : getAudioParamResolves t p = true)
    (hnode : AudioContextManager.getLfo m idx = some node) :
    (connectLFO m t p mn mx idx).lfoConnections =
      jsMapSet (jsMapDelete t.lfoConnections p) p
        { scaleMin := mn, scaleMax := mx,
          reversed := t.lfoReverseState p, source := node } := by
  unfold connectLFO disconnectLFO
  rw [if_neg (by simp [hres])]
  rw [hnode]

/-- C5: at most one LFO binding exists per parameter name.  Binding a
resolvable parameter to LFO 1 and then to LFO 2 leaves exactly one entry
for it in `lfoConnections` — LFO 2's — because `connectLFO` always tears
down the existing binding (whatever its LFO index) before installing the
new one. -/
theorem C5_single_lfo_binding_per_param (m : AcmLfoState) (t : TrackLfoState) (p : String)
    (mn1 mx1 mn2 mx2 : ℚ)
    (hres : getAudioParamResolves t p = true)
    (hm1 : m.lfo = some GlobalLfo.one)
    (hm2 : m.lfo2 = some GlobalLfo.two) :
    ((connectLFO m (connectLFO m t p mn1 mx1 1) p mn2 mx2 2).lfoConnections.countP
        (fun q => q.1 == p)) = 1 ∧
    (jsMapLookup
        (connectLFO m (connectLFO m t p mn1 mx1 1) p mn2 mx2 2).lfoConnections
        p).map LfoConn.source = some GlobalLfo.two ∧
    (∀ c ∈ (connectLFO m (connectLFO m t p mn1 mx1 1) p mn2 mx2 2).lfoConnections,
        c.1 = p → c.2.source = GlobalLfo.two) := by
  have hlfo1 : AudioContextManager.getLfo m 1 = some GlobalLfo.one := by
    rw [AudioContextManager.getLfo, if_pos rfl, hm1]
  have hlfo2 : AudioContextManager.getLfo m 2 = some GlobalLfo.two := by
    rw [AudioContextManager.getLfo, if_neg (by norm_num), hm2]
  set t1 := connectLFO m t p mn1 mx1 1 with ht1def
  have hres1 : getAudioParamResolves t1 p = true := by
    rw [getAudioParamResolves_congr t t1 p
      (connectLFO_slotParamResolves m t p mn1 mx1 1)]
    exact hres
  have hrev1 : t1.lfoReverseState = t.lfoReverseState :=
    connectLFO_reverseState m t p mn1 mx1 1
  have hc1 : t1.lfoConnections =
      jsMapDelete t.lfoConnections p ++
        [(p, { scaleMin := mn1, scaleMax := mx1,
               reversed := t.lfoReverseState p, source := GlobalLfo.one })] := by
    rw [ht1def, connectLFO_conns_eq m t p mn1 mx1 1 GlobalLfo.one hres hlfo1]
    rw [jsMapSet, if_neg (by simp [jsMapDelete_any])]
  have hc2 : (connectLFO m t1 p mn2 mx2 2).lfoConnections =
      jsMapDelete t.lfoConnections p ++
        [(p, { scaleMin := mn2, scaleMax := mx2,
               reversed := t.lfoReverseState p, source := GlobalLfo.two })] := by
    rw [connectLFO_conns_eq m t1 p mn2 mx2 2 GlobalLfo.two hres1 hlfo2]
    rw [hrev1, hc1, jsMapDelete_append_single]
    rw [jsMapSet, if_neg (by simp [jsMapDelete_any])]
  refine ⟨?_, ?_, ?_⟩
  · rw [hc2, List.countP_append, jsMapDelete_countP]
    simp
  · rw [hc2, jsMapLookup, List.find?_append]
    have hnone : (jsMapDelete t.lfoConnections p).find?
        (fun q => q.1 == p) = none := by
      rw [List.find?_eq_none]
      intro q hq
      have := List.of_mem_filter hq
      simpa using this
    rw [hnone]
    simp
  · rw [hc2]
    intro c hc hcp
    rcases List.mem_append.mp hc with hmem | hmem
    · have := List.of_mem_filter hmem
      rw [hcp] at this
      simp at this
    · rcases List.mem_singleton.mp hmem with rfl
      rfl


/-- A track with no LFO bindings, no reversal flags and no slot effects. -/
def trackNoBindings : TrackLfoState :=
  { lfoConnections := []
    lfoReverseState := fun _ => false
    slotParamResolves := fun _ => false }

/-- C5 witness: the theorem applied to an initialized manager and the
`volume` parameter, bound to LFO 1 with range `[0,1]` and then to LFO 2
with range `[2,3]`. -/
theorem C5_single_lfo_binding_per_param_witness :
    ((connectLFO acmInitialized
        (connectLFO acmInitialized trackNoBindings "volume" 0 1 1)
        "volume" 2 3 2).lfoConnections.countP
          (fun q => q.1 == "volume")) = 1 ∧
    (jsMapLookup
        (connectLFO acmInitialized
          (connectLFO acmInitialized trackNoBindings "volume" 0 1 1)
          "volume" 2 3 2).lfoConnections
        "volume").map LfoConn.source = some GlobalLfo.two ∧
    (∀ c ∈ (connectLFO acmInitialized
        (connectLFO acmInitialized trackNoBindings "volume" 0 1 1)
        "volume" 2 3 2).lfoConnections,
        c.1 = "volume" → c.2.source = GlobalLfo.two) :=
  C5_single_lfo_binding_per_param acmInitialized trackNoBindings "volume"
    0 1 2 3 (by simp [getAudioParamResolves]) rfl rfl

/-- C10: `AudioContextManager.getLfo(index)` returns the first LFO only
for `index === 1` and the second LFO for every other index value;
consequently `connectLFO` called with an out-of-range `lfoIndex` installs
a binding driven by LFO 2 instead of rejecting the call. -/
theorem C10_getLfo_defaults_to_lfo2 (m : AcmLfoState) (i : ℤ)
    (t : TrackLfoState) (p : String) (mn mx : ℚ)
    (hi : i ≠ 1)
    (hres : getAudioParamResolves t p = true)
    (hm2 : m.lfo2 = some GlobalLfo.two) :
    AudioContextManager.getLfo m i = m.lfo2 ∧
    AudioContextManager.getLfo m 1 = m.lfo ∧
    (jsMapLookup (connectLFO m t p mn mx i).lfoConnections p).map
        LfoConn.source = some GlobalLfo.two := by
  have h1 : AudioContextManager.getLfo m i = m.lfo2 := by
    rw [AudioContextManager.getLfo, if_neg hi]
  refine ⟨h1, by rw [AudioContextManager.getLfo, if_pos rfl], ?_⟩
  have hnode : AudioContextManager.getLfo m i = some GlobalLfo.two := by
    rw [h1, hm2]
  rw [connectLFO_conns_eq m t p mn mx i GlobalLfo.two hres hnode]
  rw [jsMapSet, if_neg (by simp [jsMapDelete_any])]
  rw [jsMapLookup, List.find?_append]
  have hnone : (jsMapDelete t.lfoConnections p).find?
      (fun q => q.1 == p) = none := by
    rw [List.find?_eq_none]
    intro q hq
    have := List.of_mem_filter hq
    simpa using this
  rw [hnone]
  simp

/-- C10 witness: the theorem applied at the out-of-range index 3 on an
initialized manager: the `volume` binding is driven by LFO 2. -/
theorem C10_getLfo_defaults_to_lfo2_witness :
    AudioContextManager.getLfo acmInitialized 3 = acmInitialized.lfo2 ∧
    AudioContextManager.getLfo acmInitialized 1 = acmInitialized.lfo ∧
    (jsMapLookup
        (connectLFO acmInitialized trackNoBindings "volume" 0 1 3).lfoConnections
        "volume").map LfoConn.source = some GlobalLfo.two :=
  C10_getLfo_defaults_to_lfo2 acmInitialized 3 trackNoBindings "volume" 0 1
    (by norm_num) (by simp [getAudioParamResolves]) rfl

/-! ## Shared input stream cache
(`AudioContextManager.getSharedInputStream`, AudioContextManager.js:229-252)

Streams are identified by the order in which `getUserMedia` opened them;
`opens` counts hardware opens (and doubles as the next fresh stream id).
`active` models `MediaStream.active`.  The method has two phases
separated by the `await navigator.mediaDevices.getUserMedia(...)`
suspension point: a synchronous cache probe, and the negotiation that
stores the freshly opened stream. -/

structure StreamCacheState where
  inputStreams : List (String × ℕ)
  opens : ℕ
  deriving Repr, DecidableEq

/-- The cache-probe phase (AudioContextManager.js:230-235): `key =
deviceId || 'default'`; a cached, still-active stream is returned,
an inactive one is evicted. -/
def sharedStreamCheck (active : ℕ → Bool) (s : StreamCacheState)
    (deviceId : Option String) : Option ℕ × StreamCacheState :=
  let key := deviceId.getD "default"
  match jsMapLookup s.inputStreams key with
  | some st =>
      if active st then (some st, s)
      else (none, { s with inputStreams := jsMapDelete s.inputStreams key })
  | none => (none, s)

/-- The negotiation phase (AudioContextManager.js:237-251): one
`getUserMedia` hardware open produces a fresh stream, which is cached
and returned. -/
def sharedStreamNegotiate (s : StreamCacheState) (deviceId : Option String) :
    ℕ × StreamCacheState :=
  let key := deviceId.getD "default"
  (s.opens,
   { inputStreams := jsMapSet s.inputStreams key s.opens,
     opens := s.opens + 1 })

/-- Embedding of a complete, uninterleaved run of
`AudioContextManager.getSharedInputStream` (AudioContextManager.js:229-252). -/
def getSharedInputStream (active : ℕ → Bool) (s : StreamCacheState)
    (deviceId : Option String) : ℕ × StreamCacheState :=
  match sharedStreamCheck active s deviceId with
  | (some st, s1) => (st, s1)
  | (none, s1) => sharedStreamNegotiate s1 deviceId

lemma jsMapLookup_set_self {α : Type} (l : List (String × α)) (k : String)
    (v : α) : jsMapLookup (jsMapSet l k v) k = some v := by
  induction l with
  | nil => simp [jsMapSet, jsMapLookup]
  | cons a l ih =>
      by_cases hak : a.1 = k
      · rw [jsMapSet, if_pos (by simp [List.any_cons, hak])]
        rw [jsMapLookup]
        simp only [List.map_cons, if_pos hak]
        rw [List.find?_cons_of_pos _ (by simp)]
        rfl
      · have hstep : jsMapSet (a :: l) k v = a :: jsMapSet l k v := by
          rw [jsMapSet, jsMapSet, List.any_cons]
          rw [beq_eq_false_iff_ne.mpr hak]
          simp only [Bool.false_or]
          by_cases hany : l.any (fun q => q.1 == k) = true
          · rw [if_pos hany, if_pos hany, List.map_cons, if_neg hak]
          · rw [if_neg hany, if_neg hany, List.cons_append]
        rw [hstep, jsMapLookup,
          List.find?_cons_of_neg _ (by simpa using hak)]
        exact ih


lemma sharedStreamCheck_none (active : ℕ → Bool) (s : StreamCacheState)
    (d : Option String)
    (hlk : jsMapLookup s.inputStreams (d.getD "default") = none) :
    sharedStreamCheck active s d = (none, s) := by
  rw [sharedStreamCheck]
  simp only [hlk]

lemma sharedStreamCheck_active (active : ℕ → Bool) (s : StreamCacheState)
    (d : Option String) (st : ℕ)
    (hlk : jsMapLookup s.inputStreams (d.getD "default") = some st)
    (hact : active st = true) :
    sharedStreamCheck active s d = (some st, s) := by
  rw [sharedStreamCheck]
  simp only [hlk, hact, if_true]

lemma getShared_of_check_none (active : ℕ → Bool) (s : StreamCacheState)
    (d : Option String)
    (hchk : sharedStreamCheck active s d = (none, s)) :
    getSharedInputStream active s d = sharedStreamNegotiate s d := by
  rw [getSharedInputStream, hchk]

/-- C6 (amended): when a second `getSharedInputStream` call for the same
device id starts only after the first has completed (and the stream the
first produced is still active), it returns the same underlying stream
object and leaves the cache state — including the hardware-open count —
unchanged: no duplicate hardware open.  (The original claim also covered
a second call arriving while the first negotiation is in flight; the
code does not serialize on an in-flight request, see the
counterexample.) -/
theorem C6_sequential_calls_share_stream (active : ℕ → Bool) (s : StreamCacheState)
    (d : Option String)
    (hact : active (getSharedInputStream active s d).1 = true) :
    getSharedInputStream active (getSharedInputStream active s d).2 d =
      getSharedInputStream active s d := by
  rcases hlk : jsMapLookup s.inputStreams (d.getD "default") with _ | st
  · have hfirst : getSharedInputStream active s d = sharedStreamNegotiate s d :=
      getShared_of_check_none active s d (sharedStreamCheck_none active s d hlk)
    rw [hfirst]
    have hlk2 : jsMapLookup (sharedStreamNegotiate s d).2.inputStreams
        (d.getD "default") = some s.opens := by
      rw [sharedStreamNegotiate]
      exact jsMapLookup_set_self _ _ _
    have hact2 : active s.opens = true := by
      rw [hfirst] at hact
      exact hact
    rw [getSharedInputStream,
      sharedStreamCheck_active active _ d s.opens hlk2 hact2]
    rfl
  · by_cases hact1 : active st = true
    · have hchk := sharedStreamCheck_active active s d st hlk hact1
      have hfirst : getSharedInputStream active s d = (st, s) := by
        rw [getSharedInputStream, hchk]
      rw [hfirst, getSharedInputStream, hchk]
    · -- cached stream inactive: evict, then negotiate on the evicted state
      have hchk : sharedStreamCheck active s d =
          (none, { s with inputStreams :=
                     jsMapDelete s.inputStreams (d.getD "default") }) := by
        rw [sharedStreamCheck]
        simp only [hlk]
        rw [if_neg hact1]
      have hfirst : getSharedInputStream active s d =
          sharedStreamNegotiate
            { s with inputStreams :=
                jsMapDelete s.inputStreams (d.getD "default") } d := by
        rw [getSharedInputStream, hchk]
      rw [hfirst]
      have hlk2 : jsMapLookup
          (sharedStreamNegotiate
            { s with inputStreams :=
                jsMapDelete s.inputStreams (d.getD "default") } d).2.inputStreams
          (d.getD "default") = some s.opens := by
        rw [sharedStreamNegotiate]
        exact jsMapLookup_set_self _ _ _
      have hact2 : active s.opens = true := by
        rw [hfirst] at hact
        exact hact
      rw [getSharedInputStream,
        sharedStreamCheck_active active _ d s.opens hlk2 hact2]
      rfl


/-- The cache state at startup: no cached streams, no hardware opens. -/
def emptyStreamCache : StreamCacheState :=
  { inputStreams := [], opens := 0 }

/-- An environment where every opened stream stays active. -/
def allStreamsActive : ℕ → Bool := fun _ => true

/-- Caller A's negotiation, completing after both cache probes missed. -/
def concurrentTraceA : ℕ × StreamCacheState :=
  sharedStreamNegotiate emptyStreamCache none

/-- Caller B's negotiation, issued because B's probe (run while A's
`getUserMedia` was still in flight) also missed the cache. -/
def concurrentTraceB : ℕ × StreamCacheState :=
  sharedStreamNegotiate concurrentTraceA.2 none

/-- C6 (counterexample): two concurrent `getSharedInputStream` calls for
the same device id, the second probing the cache while the first's
`getUserMedia` is still in flight, both miss (the probe does not record
an in-flight request), so each performs its own hardware open: the two
callers receive different stream objects and the open count reaches 2.
This refutes the claim for the in-flight case. -/
theorem C6_counterexample :
    (sharedStreamCheck allStreamsActive emptyStreamCache none).1 = none ∧
    (sharedStreamCheck allStreamsActive emptyStreamCache none).2 =
      emptyStreamCache ∧
    concurrentTraceA.1 ≠ concurrentTraceB.1 ∧
    concurrentTraceB.2.opens = 2 := by
  refine ⟨rfl, rfl, ?_, rfl⟩
  norm_num [concurrentTraceA, concurrentTraceB, sharedStreamNegotiate,
    emptyStreamCache]

/-- C6 witness: the amended theorem applied to the empty cache with the
default device id and always-active streams. -/
theorem C6_sequential_calls_share_stream_witness :
    getSharedInputStream allStreamsActive
        (getSharedInputStream allStreamsActive emptyStreamCache none).2 none =
      getSharedInputStream allStreamsActive emptyStreamCache none :=
  C6_sequential_calls_share_stream allStreamsActive emptyStreamCache none rfl


/-! ## Wire PCM encoding of the batched cast path
(`startAudioPiping`, CastManager.js:468-511)

The default (non-HLS) branch attenuates each sample by the 0.95 headroom
factor, clamps to `[-1, 1]`, quantizes to 24-bit with `Math.floor`, and
writes three little-endian bytes of the two's-complement value.  The
JavaScript bitwise operators work on the 32-bit two's complement of the
integer, so the three bytes carry its low 24 bits. -/

/-- The clamp of the encoding loop (CastManager.js:483-484), applied
after the `* 0.95` attenuation: `if (l > 1) l = 1; else if (l < -1)
l = -1;`. -/
def clampSample (x : ℚ) : ℚ :=
  if x > 1 then 1 else if x < -1 then -1 else x

/-- The 24-bit quantizer of the encoding loop (CastManager.js:480-490):
`l_int = Math.floor((clamped sample) * 8388607)` for the attenuated,
clamped sample (`0.95 = 19/20`). -/
def pcm24Quantize (v : ℚ) : ℤ :=
  ⌊clampSample (v * (19/20)) * 8388607⌋

/-- The three little-endian wire bytes of one sample
(CastManager.js:492-494): `i & 0xFF`, `(i >> 8) & 0xFF`,
`(i >> 16) & 0xFF`, i.e. the low 24 bits of the two's complement. -/
def pcm24Bytes (i : ℤ) : ℤ × ℤ × ℤ :=
  (i % 2^24 % 256, i % 2^24 / 256 % 256, i % 2^24 / 65536)

/-- Modelled from the spec: the remote bridge that decodes the wire PCM
is not part of this repository.  Per the spec the default wire format is
"24-bit signed little-endian interleaved stereo" with samples in
`[-1, 1]`, so the decoder reassembles the little-endian bytes,
sign-extends the 24-bit two's-complement value and divides by the
encoder's full-scale constant `8388607`. -/
def pcm24Decode (b : ℤ × ℤ × ℤ) : ℚ :=
  let u := b.1 + 256 * b.2.1 + 65536 * b.2.2
  ((if u < 2^23 then u else u - 2^24 : ℤ) : ℚ) / 8388607

lemma clampSample_bounds (x : ℚ) :
    -1 ≤ clampSample x ∧ clampSample x ≤ 1 := by
  unfold clampSample
  split_ifs with h1 h2
  · norm_num
  · norm_num
  · push_neg at h1 h2
    exact ⟨h2, h1⟩

lemma pcm24Quantize_bounds (v : ℚ) :
    -(2^23) ≤ pcm24Quantize v ∧ pcm24Quantize v < 2^23 := by
  have hb := clampSample_bounds (v * (19/20))
  unfold pcm24Quantize
  constructor
  · have : (-8388607 : ℚ) ≤ clampSample (v * (19/20)) * 8388607 := by nlinarith [hb.1]
    have hfl := Int.le_floor.mpr (by push_cast; linarith : ((-8388607 : ℤ) : ℚ) ≤ clampSample (v * (19/20)) * 8388607)
    omega
  · have : clampSample (v * (19/20)) * 8388607 ≤ (8388607 : ℚ) := by nlinarith [hb.2]
    have hfl : ⌊clampSample (v * (19/20)) * 8388607⌋ ≤ ⌊(8388607 : ℚ)⌋ :=
      Int.floor_le_floor this
    rw [show ⌊(8388607 : ℚ)⌋ = 8388607 by norm_num] at hfl
    omega

lemma pcm24_bytes_decode (i : ℤ) (h1 : -(2^23) ≤ i) (h2 : i < 2^23) :
    pcm24Decode (pcm24Bytes i) = (i : ℚ) / 8388607 := by
  have heq : pcm24Decode (pcm24Bytes i) =
      (((if i % 2^24 % 256 + 256 * (i % 2^24 / 256 % 256) +
            65536 * (i % 2^24 / 65536) < 2^23 then
          i % 2^24 % 256 + 256 * (i % 2^24 / 256 % 256) +
            65536 * (i % 2^24 / 65536)
        else i % 2^24 % 256 + 256 * (i % 2^24 / 256 % 256) +
            65536 * (i % 2^24 / 65536) - 2^24 : ℤ) : ℚ)) / 8388607 := rfl
  have hint : (if i % 2^24 % 256 + 256 * (i % 2^24 / 256 % 256) +
        65536 * (i % 2^24 / 65536) < 2^23 then
        i % 2^24 % 256 + 256 * (i % 2^24 / 256 % 256) +
          65536 * (i % 2^24 / 65536)
      else i % 2^24 % 256 + 256 * (i % 2^24 / 256 % 256) +
          65536 * (i % 2^24 / 65536) - 2^24) = i := by
    split_ifs with hcond <;> omega
  rw [heq, hint]


/-- C8 (amended): for every captured sample value, encoding a sample to
the default wire PCM format (24-bit signed little-endian) and decoding
it reproduces the attenuated, clamped sample value
`clamp(0.95 * v)` — not the original sample value — to within one
quantization step `1/8388607` of the encoder's full scale (which itself
slightly exceeds `2⁻²³ = 1/8388608`, because the quantizer floors against
full scale `8388607` rather than `2²³`). -/
theorem C8_pcm24_roundtrip_within_lsb (v : ℚ) :
    |pcm24Decode (pcm24Bytes (pcm24Quantize v)) - clampSample (v * (19/20))| <
      1/8388607 := by
  have hb := pcm24Quantize_bounds v
  rw [pcm24_bytes_decode _ hb.1 hb.2]
  rw [pcm24Quantize]
  set y := clampSample (v * (19/20)) with hy
  have h1 : (⌊y * 8388607⌋ : ℚ) ≤ y * 8388607 := Int.floor_le _
  have h2 : y * 8388607 < ⌊y * 8388607⌋ + 1 := Int.lt_floor_add_one _
  have key : (⌊y * 8388607⌋ : ℚ) / 8388607 - y =
      ((⌊y * 8388607⌋ : ℚ) - y * 8388607) / 8388607 := by ring
  have habs : |(⌊y * 8388607⌋ : ℚ) / 8388607 - y| =
      (y * 8388607 - ⌊y * 8388607⌋) / 8388607 := by
    rw [key, abs_div, abs_sub_comm, abs_of_nonneg (by linarith),
      abs_of_pos (by norm_num : (0:ℚ) < 8388607)]
  rw [habs, div_lt_div_iff₀ (by norm_num) (by norm_num)]
  nlinarith

/-- C8 (counterexample): the claim that decoding reproduces the sample
value within `2⁻²³` is false at the concrete sample `1/2`: the 0.95
headroom attenuation applied before packing makes the decoded value
`3984588/8388607 ≈ 0.475`, an error of about `0.025 ≥ 2⁻²³`. -/
theorem C8_counterexample :
    pcm24Decode (pcm24Bytes (pcm24Quantize (1/2))) = 3984588/8388607 ∧
    ¬ |pcm24Decode (pcm24Bytes (pcm24Quantize (1/2))) - 1/2| < 1/2^23 := by
  constructor
  · norm_num [pcm24Quantize, pcm24Bytes, pcm24Decode, clampSample]
  · norm_num [pcm24Quantize, pcm24Bytes, pcm24Decode, clampSample]
    rw [abs_of_pos (by norm_num : (0:ℚ) < 419431/16777214)]
    norm_num


end CastReceiver
